import Mathlib

/-!
Verification of the command dispatch / cooldown / cache / console pipeline of
`src/bot.py` (a Discord bot).  Python state is embedded shallowly:

* `time.time()` / `datetime.now()` values become `Rat` (exact rationals stand
  in for the floating-point clock; only order and subtraction are used).
* the per-command `cooldowns` dict of the `cooldown` decorator and the global
  `weather_cache` dict become association lists with unique keys
  (`List (Nat × Rat)`, `List (String × String × Rat)`), with dict lookup and
  dict assignment embedded as `lookupCd`/`insertCd` resp. `cacheLookup`/`cachePut`.
* coroutine handlers become pure functions returning the list of messages they
  send plus the updated state; a raised-and-caught exception becomes an
  explicit outcome constructor.
-/

namespace Bot

/-! ## Generic helpers: substring test (for "the response contains ...") -/

/-- Boolean prefix test on character lists. -/
def isPrefixCB : List Char → List Char → Bool
  | [], _ => true
  | _ :: _, [] => false
  | a :: as, b :: bs => a == b && isPrefixCB as bs

/-- Boolean infix (contiguous substring) test on character lists. -/
def isInfixCB (sub : List Char) : List Char → Bool
  | [] => isPrefixCB sub []
  | b :: bs => isPrefixCB sub (b :: bs) || isInfixCB sub bs

/-- Substring test: `strContains s sub = true` iff `sub` occurs contiguously inside `s`. -/
def strContains (s sub : String) : Bool :=
  isInfixCB sub.data s.data

theorem isPrefixCB_append (l r : List Char) : isPrefixCB l (l ++ r) = true := by
  induction l with
  | nil => rfl
  | cons a as ih => simp [isPrefixCB, ih]

theorem isInfixCB_of_pre (sub l : List Char) (h : isPrefixCB sub l = true) :
    isInfixCB sub l = true := by
  cases l with
  | nil => simpa [isInfixCB] using h
  | cons b bs => simp [isInfixCB, h]

theorem isInfixCB_append_left (sub pre l : List Char) (h : isInfixCB sub l = true) :
    isInfixCB sub (pre ++ l) = true := by
  induction pre with
  | nil => simpa using h
  | cons c cs ih => simp [isInfixCB, ih]

theorem isPrefixCB_extend (sub : List Char) :
    ∀ l r : List Char, isPrefixCB sub l = true → isPrefixCB sub (l ++ r) = true := by
  induction sub with
  | nil => intro l r _; rfl
  | cons a as ih =>
      intro l r h
      cases l with
      | nil => simp [isPrefixCB] at h
      | cons b bs =>
          simp only [isPrefixCB, Bool.and_eq_true] at h
          simp only [List.cons_append, isPrefixCB, Bool.and_eq_true]
          exact ⟨h.1, ih bs r h.2⟩

theorem isInfixCB_nil (l : List Char) : isInfixCB [] l = true := by
  cases l with
  | nil => rfl
  | cons b bs => simp [isInfixCB, isPrefixCB]

theorem isInfixCB_extend (sub l r : List Char) (h : isInfixCB sub l = true) :
    isInfixCB sub (l ++ r) = true := by
  induction l with
  | nil =>
      cases sub with
      | nil => simpa using isInfixCB_nil r
      | cons a as => simp [isInfixCB, isPrefixCB] at h
  | cons b bs ih =>
      simp only [isInfixCB, Bool.or_eq_true] at h
      simp only [List.cons_append, isInfixCB, Bool.or_eq_true]
      rcases h with h | h
      · exact Or.inl (isPrefixCB_extend sub (b :: bs) r h)
      · exact Or.inr (ih h)

/-- A string that starts with `sub` contains `sub`. -/
theorem strContains_startsWith (sub post : String) :
    strContains (sub ++ post) sub = true := by
  have h1 : isPrefixCB sub.data (sub.data ++ post.data) = true :=
    isPrefixCB_append sub.data post.data
  have h2 : isInfixCB sub.data (sub.data ++ post.data) = true :=
    isInfixCB_of_pre _ _ h1
  simpa [strContains, String.data_append] using h2

/-- Containment survives prepending. -/
theorem strContains_append_left (a b sub : String) (h : strContains b sub = true) :
    strContains (a ++ b) sub = true := by
  simpa [strContains, String.data_append] using
    isInfixCB_append_left sub.data a.data b.data (by simpa [strContains] using h)

/-- Containment survives appending. -/
theorem strContains_append_right (a b sub : String) (h : strContains a sub = true) :
    strContains (a ++ b) sub = true := by
  simpa [strContains, String.data_append] using
    isInfixCB_extend sub.data a.data b.data (by simpa [strContains] using h)

/-- A string built as `pre ++ (sub ++ post)` contains `sub`. -/
theorem strContains_appendR (pre sub post : String) :
    strContains (pre ++ (sub ++ post)) sub = true :=
  strContains_append_left pre (sub ++ post) sub (strContains_startsWith sub post)

/-! ## Cooldown tracker (`cooldown` decorator, src/bot.py lines 115-136)

Each decorated command closes over its own `cooldowns = {}` dict keyed by
`interaction.user.id`, so the aggregate store is keyed by
(user, command); we model the dict of one command. -/

/-- Dict lookup `cooldowns[user_id]` (`user_id in cooldowns` ↔ `some _`). -/
def lookupCd : List (Nat × Rat) → Nat → Option Rat
  | [], _ => none
  | (k, v) :: rest, u => if k = u then some v else lookupCd rest u

/-- Dict assignment `cooldowns[user_id] = t`: replaces the existing entry for
the key, else appends a fresh one (Python dict semantics). -/
def insertCd : List (Nat × Rat) → Nat → Rat → List (Nat × Rat)
  | [], u, t => [(u, t)]
  | (k, v) :: rest, u, t =>
      if k = u then (u, t) :: rest else (k, v) :: insertCd rest u t

/-- Outcome of the cooldown gate for one invocation. -/
inductive CdResult where
  | allowed : CdResult
  | denied (remaining : Rat) : CdResult
  deriving DecidableEq, Repr

/-- One run of the `wrapper` inside `cooldown(seconds)` at clock `now` for
user `u`: deny (sending the "Please wait" message, not touching the dict)
when an entry exists and `now - last < seconds`; otherwise record `now` and
run the wrapped handler. -/
def cooldown (seconds : Rat) (cooldowns : List (Nat × Rat)) (u : Nat) (now : Rat) :
    CdResult × List (Nat × Rat) :=
  match lookupCd cooldowns u with
  | some last =>
      if now - last < seconds then
        (CdResult.denied (seconds - (now - last)), cooldowns)
      else
        (CdResult.allowed, insertCd cooldowns u now)
  | none => (CdResult.allowed, insertCd cooldowns u now)

/-- A sequence of invocations of one command, each a `(userId, clock)` pair,
run through the cooldown gate in order (the dict evolves across the
decorated command's lifetime; entries are only ever written, never deleted). -/
def runCooldowns (seconds : Rat) (st : List (Nat × Rat)) (evts : List (Nat × Rat)) :
    List (Nat × Rat) :=
  evts.foldl (fun s e => (cooldown seconds s e.1 e.2).2) st

theorem lookupCd_insertCd_self (l : List (Nat × Rat)) (u : Nat) (t : Rat) :
    lookupCd (insertCd l u t) u = some t := by
  induction l with
  | nil => simp [insertCd, lookupCd]
  | cons p rest ih =>
      obtain ⟨k, v⟩ := p
      by_cases hk : k = u
      · simp [insertCd, lookupCd, hk]
      · simp [insertCd, lookupCd, hk, ih]

theorem lookupCd_insertCd_ne (l : List (Nat × Rat)) (u u' : Nat) (t : Rat)
    (h : u' ≠ u) : lookupCd (insertCd l u t) u' = lookupCd l u' := by
  have h' : ¬(u = u') := fun hh => h hh.symm
  induction l with
  | nil => simp [insertCd, lookupCd, h']
  | cons p rest ih =>
      obtain ⟨k, v⟩ := p
      by_cases hk : k = u
      · subst hk
        simp [insertCd, lookupCd, h']
      · simp [insertCd, lookupCd, hk, ih]

/-- Keys of `insertCd`: unchanged when the key was present, appended otherwise. -/
theorem insertCd_keys (l : List (Nat × Rat)) (u : Nat) (t : Rat) :
    (insertCd l u t).map Prod.fst =
      (if u ∈ l.map Prod.fst then l.map Prod.fst else l.map Prod.fst ++ [u]) := by
  induction l with
  | nil => simp [insertCd]
  | cons p rest ih =>
      obtain ⟨k, v⟩ := p
      by_cases hk : k = u
      · simp [insertCd, hk]
      · simp only [insertCd, if_neg hk, List.map_cons, ih]
        by_cases hmem : u ∈ rest.map Prod.fst
        · simp [hmem, Ne.symm hk]
        · simp [hmem, Ne.symm hk]

theorem insertCd_keys_nodup (l : List (Nat × Rat)) (u : Nat) (t : Rat)
    (h : (l.map Prod.fst).Nodup) : ((insertCd l u t).map Prod.fst).Nodup := by
  rw [insertCd_keys]
  by_cases hmem : u ∈ l.map Prod.fst
  · simpa [hmem] using h
  · simp only [hmem, if_false]
    exact List.Nodup.append h (List.nodup_singleton u) (by simpa using hmem)

/-! ## Weather response cache (`weather_cache`, src/bot.py lines 76, 216-252)

`weather_cache` maps a lowercased city name to `(message, cachedAt)`. -/

/-- Dict lookup in `weather_cache` (`cache_key in weather_cache` ↔ `some _`). -/
def cacheLookup : List (String × String × Rat) → String → Option (String × Rat)
  | [], _ => none
  | (k, v) :: rest, key => if k = key then some v else cacheLookup rest key

/-- Dict assignment `weather_cache[cache_key] = (message, now)`. -/
def cachePut : List (String × String × Rat) → String → String → Rat →
    List (String × String × Rat)
  | [], key, msg, now => [(key, msg, now)]
  | (k, v) :: rest, key, msg, now =>
      if k = key then (key, msg, now) :: rest else (k, v) :: cachePut rest key msg now

/-- The read path of the cache (src/bot.py lines 219-224): a value is served
iff the key is present and `now - cachedAt < ttl`; a stale or absent entry is
a miss (the handler then falls through to the external fetch). -/
def cacheGet (c : List (String × String × Rat)) (key : String) (now ttl : Rat) :
    Option String :=
  match cacheLookup c key with
  | some (v, t) => if now - t < ttl then some v else none
  | none => none

theorem cacheLookup_cachePut_self (c : List (String × String × Rat))
    (key msg : String) (now : Rat) :
    cacheLookup (cachePut c key msg now) key = some (msg, now) := by
  induction c with
  | nil => simp [cachePut, cacheLookup]
  | cons p rest ih =>
      obtain ⟨k, v⟩ := p
      by_cases hk : k = key
      · simp [cachePut, cacheLookup, hk]
      · simp [cachePut, cacheLookup, hk, ih]

/-! ## Weather command handler (`weather`, src/bot.py lines 205-266) -/

/-- The fields the handler extracts from the provider's JSON body.  Numeric
fields are kept as their rendered decimal text, since the handler only ever
interpolates them into an f-string. -/
structure WeatherData where
  description : String
  temp : String
  feels_like : String
  humidity : String
  wind_speed : String
  name : String
  country : String
  deriving DecidableEq, Repr

/-- Python's `str.lower()` (on the ASCII city names at issue). -/
def pyLower (s : String) : String :=
  String.mk (s.data.map Char.toLower)

/-- Python's `str.capitalize()`: first character upper-cased, rest lower-cased. -/
def pyCapitalize (s : String) : String :=
  match s.data with
  | [] => ""
  | c :: cs => String.mk (c.toUpper :: cs.map Char.toLower)

/-- The success message built at src/bot.py lines 244-249 (f-string, i.e. pure
string concatenation; grouped to the right). -/
def weatherMessage (d : WeatherData) : String :=
  "Weather in " ++ (d.name ++ (", " ++ (d.country ++ (": " ++
    (pyCapitalize d.description ++ ("\nTemperature: " ++ (d.temp ++
    ("°C (Feels like: " ++ (d.feels_like ++ ("°C)\nHumidity: " ++ (d.humidity ++
    ("%\nWind Speed: " ++ (d.wind_speed ++ " m/s")))))))))))))

/-- Outcome of `requests.get` under `asyncio.timeout(10)`, as the handler's
`try` block observes it. `ok` is status 200 with a parsable body; a 200 body
whose fields fail to parse raises and lands in `exn`. -/
inductive FetchOutcome where
  | ok (d : WeatherData)
  | httpStatus (code : Nat)
  | timeout
  | exn
  deriving DecidableEq, Repr

/-- A message sent through the interaction. -/
structure Msg where
  content : String
  ephemeral : Bool
  deriving DecidableEq, Repr

/-- Result of one `weather` invocation: the messages sent, the cache left
behind, and whether the external HTTP call was made. -/
structure WeatherStep where
  messages : List Msg
  cache : List (String × String × Rat)
  fetched : Bool
  deriving DecidableEq, Repr

/-- The body of the `weather` slash command (src/bot.py lines 208-266), after
the cooldown gate.  `apikey` is the module-level `get_apikey_from_file()`
result (`none` = read failure; Python also treats an empty string as falsy).
`fetch` is what the external call would observe; it is consulted only on a
cache miss. -/
def weather (apikey : Option String) (cache : List (String × String × Rat))
    (ttl : Rat) (city : String) (now : Rat) (fetch : FetchOutcome) : WeatherStep :=
  if apikey.getD "" = "" then
    ⟨[⟨"Weather API is not configured.", true⟩], cache, false⟩
  else
    let key := pyLower city
    match cacheGet cache key now ttl with
    | some cached => ⟨[⟨cached, false⟩], cache, false⟩
    | none =>
      match fetch with
      | FetchOutcome.ok d =>
          let msg := weatherMessage d
          ⟨[⟨msg, false⟩], cachePut cache key msg now, true⟩
      | FetchOutcome.httpStatus code =>
          if code = 404 then
            ⟨[⟨"City " ++ city ++ " not found. Please check the city name.", true⟩],
              cache, true⟩
          else
            ⟨[⟨"An error occurred while fetching weather data. Please try again later.",
                true⟩], cache, true⟩
      | FetchOutcome.timeout =>
          ⟨[⟨"The weather service is taking too long to respond. Please try again later.",
              true⟩], cache, true⟩
      | FetchOutcome.exn =>
          ⟨[⟨"An error occurred while fetching weather data. Please try again later.",
              true⟩], cache, true⟩

/-! ## Error hook (`on_app_command_error`, src/bot.py lines 420-447) -/

/-- The error classes the hook distinguishes (`app_commands.CommandOnCooldown`,
`app_commands.MissingPermissions`, anything else with its `str(error)` text). -/
inductive AppCommandError where
  | commandOnCooldown (retry_after : String)
  | missingPermissions
  | other (message : String)
  deriving DecidableEq, Repr

/-- The `error_message` the hook settles on (src/bot.py lines 434-440):
`str(error)` by default, replaced by a friendlier text for the two
recognised classes (`retry_after` kept as its rendered one-decimal text). -/
def errorText : AppCommandError → String
  | AppCommandError.commandOnCooldown r =>
      "This command is on cooldown. Try again in " ++ (r ++ " seconds.")
  | AppCommandError.missingPermissions =>
      "You don\u0027t have permission to use this command."
  | AppCommandError.other m => m

/-- What the hook did with the interaction: sent via the initial response,
sent via a followup, or sent nothing because its own send raised (the
exception is caught and only logged). -/
inductive HookSend where
  | initial (content : String) (ephemeral : Bool)
  | followup (content : String) (ephemeral : Bool)
  | nothing
  deriving DecidableEq, Repr

/-- Result of the hook: the send it performed and whether an exception
escaped the hook. -/
structure HookResult where
  send : HookSend
  raised : Bool
  deriving DecidableEq, Repr

/-- The hook `on_app_command_error` (src/bot.py lines 420-447): inside a `try`,
build the message and send it ephemerally — through `interaction.followup`
when `interaction.response.is_done()`, else through `interaction.response`;
any exception from the send is caught by the `except` and logged, so the
hook never raises. `sendFails` is whether the attempted send raises. -/
def on_app_command_error (isDone : Bool) (e : AppCommandError) (sendFails : Bool) :
    HookResult :=
  let content := "An error occurred: " ++ errorText e
  let attempt :=
    if isDone then HookSend.followup content true else HookSend.initial content true
  if sendFails then ⟨HookSend.nothing, false⟩ else ⟨attempt, false⟩

/-- How one accepted invocation's handler ended: completed normally (having
sent its single initial response), raised before any response was sent, or
raised after the initial response was sent. -/
inductive HandlerOutcome where
  | success
  | errorBeforeResponse (e : AppCommandError)
  | errorAfterResponse (e : AppCommandError)
  deriving DecidableEq, Repr

/-- A message as the invoking user sees it: content, ephemeral flag, and
whether it arrived as a followup (after the initial interaction response). -/
structure SentMsg where
  content : String
  ephemeral : Bool
  viaFollowup : Bool
  deriving DecidableEq, Repr

/-- Modelled from the spec: the platform's dispatch of one accepted
invocation (the dispatch loop itself lives in the discord.py collaborator,
outside src/).  Every handler in src/bot.py sends exactly one initial
response on its success path (`handlerMsg` stands for it); when the handler
raises, the platform invokes `on_app_command_error` with
`interaction.response.is_done()` reflecting whether the initial response
was already sent.  Returns the messages the user sees and whether the
dispatch of this invocation raised. -/
def dispatch (handlerMsg : String) (o : HandlerOutcome) : List SentMsg × Bool :=
  match o with
  | HandlerOutcome.success => ([⟨handlerMsg, false, false⟩], false)
  | HandlerOutcome.errorBeforeResponse e =>
      match on_app_command_error false e false with
      | ⟨HookSend.initial c eph, r⟩ => ([⟨c, eph, false⟩], r)
      | ⟨HookSend.followup c eph, r⟩ => ([⟨c, eph, true⟩], r)
      | ⟨HookSend.nothing, r⟩ => ([], r)
  | HandlerOutcome.errorAfterResponse e =>
      match on_app_command_error true e false with
      | ⟨HookSend.initial c eph, r⟩ =>
          ([⟨handlerMsg, false, false⟩, ⟨c, eph, false⟩], r)
      | ⟨HookSend.followup c eph, r⟩ =>
          ([⟨handlerMsg, false, false⟩, ⟨c, eph, true⟩], r)
      | ⟨HookSend.nothing, r⟩ => ([⟨handlerMsg, false, false⟩], r)

/-- Number of initial (non-followup) interaction responses among the sent
messages; the platform accepts exactly one per interaction. -/
def initialResponses (msgs : List SentMsg) : Nat :=
  (msgs.filter (fun m => !m.viaFollowup)).length

/-! ## Console broadcast (`do_broadcast` / `broadcast_message`,
src/bot.py lines 557-593) -/

/-- A guild channel as `broadcast_message` sees it: whether
`permissions_for(guild.me).send_messages` holds, and whether a
`channel.send` on it raises. -/
structure BChannel where
  canSend : Bool
  sendFails : Bool
  deriving DecidableEq, Repr

/-- A guild as `broadcast_message` sees it. -/
structure BGuild where
  name : String
  systemChannel : Option BChannel
  textChannels : List BChannel
  deriving DecidableEq, Repr

/-- Channel choice per guild (src/bot.py lines 573-579): the system channel
when present, else the first text channel where the bot may send. -/
def pickChannel (g : BGuild) : Option BChannel :=
  match g.systemChannel with
  | some c => some c
  | none => g.textChannels.find? (fun c => c.canSend)

/-- One iteration of the per-guild loop body (src/bot.py lines 571-589),
updating the `(success_count, fail_count)` tally: a missing channel counts a
failure, a raising send is caught by the per-guild `except` and counts a
failure. -/
def broadcastStep (acc : Nat × Nat) (g : BGuild) : Nat × Nat :=
  match pickChannel g with
  | some c => if c.sendFails then (acc.1, acc.2 + 1) else (acc.1 + 1, acc.2)
  | none => (acc.1, acc.2 + 1)

/-- The whole of `broadcast_message` over the guild list: fold of the loop body from
`(0, 0)`; returns the reported `(success_count, fail_count)`. -/
def do_broadcast (guilds : List BGuild) : Nat × Nat :=
  guilds.foldl broadcastStep (0, 0)

/-- Whether the loop body counts guild `g` as a success: a channel was
picked and its send did not raise. -/
def guildSendOk (g : BGuild) : Bool :=
  match pickChannel g with
  | some c => !c.sendFails
  | none => false

/-! ## Shutdown signal handler (`signal_handler`, src/bot.py lines 643-653) -/

/-- Observable shutdown state: the module-level `is_shutting_down` flag, how
many times `shutdown_bot()` (the connection close) has been scheduled, and
the `sys.exit` code if the handler forced an exit. -/
structure ShutdownState where
  is_shutting_down : Bool
  closeCalls : Nat
  exited : Option Nat
  deriving DecidableEq, Repr

/-- The handler `signal_handler` (src/bot.py lines 643-653) on receipt of one
SIGINT/SIGTERM: if the flag is already set, `sys.exit(0)`; otherwise set the
flag and schedule `shutdown_bot()` on the bot loop. -/
def signal_handler (s : ShutdownState) : ShutdownState :=
  if s.is_shutting_down then
    { s with exited := some 0 }
  else
    { s with is_shutting_down := true, closeCalls := s.closeCalls + 1 }

/-- The state at interpreter start (src/bot.py line 73). -/
def initialShutdownState : ShutdownState := ⟨false, 0, none⟩

/-! ## Console send (`do_send` / `send_message`, src/bot.py lines 524-555) -/

/-- What the operator sees on the console and what got sent, for one `send`
command. -/
inductive SendOutcome where
  | usage
  | badId
  | channelNotFound (id : Nat)
  | sent (id : Nat) (message : String)
  | sendError (id : Nat)
  deriving DecidableEq, Repr

/-- Python's `int(s)` on the nonnegative decimal numerals that are valid
channel ids: every character a digit and the string nonempty (signs and
whitespace, which `int()` also tolerates, never name a real channel). -/
def parseNat? (s : String) : Option Nat :=
  if s.data ≠ [] ∧ s.data.all (fun c => 48 ≤ c.toNat && c.toNat ≤ 57) then
    some (s.data.foldl (fun n c => 10 * n + (c.toNat - 48)) 0)
  else none

/-- The console command `do_send` (src/bot.py lines 524-555) on already-shlex-split arguments:
fewer than two tokens prints the usage line; a channel id `int()` cannot
parse prints "Channel ID must be a number"; an id not resolving to a channel
prints not-found; a raising `channel.send` is caught and reported.
`channels` is the set of resolvable channel ids, `failing` those whose send
raises.  The returned list is every message actually sent (empty = bot
state untouched). -/
def do_send (channels : List Nat) (failing : List Nat) (args : List String) :
    SendOutcome × List (Nat × String) :=
  if args.length < 2 then
    (SendOutcome.usage, [])
  else
    match parseNat? (args.headD "") with
    | none => (SendOutcome.badId, [])
    | some id =>
        let message := String.intercalate " " args.tail
        if id ∈ channels then
          if id ∈ failing then (SendOutcome.sendError id, [])
          else (SendOutcome.sent id message, [(id, message)])
        else (SendOutcome.channelNotFound id, [])

/-! ## Userinfo command (`userinfo`, src/bot.py lines 304-334) -/

/-- A role as the handler reads it. -/
structure Role where
  name : String
  mention : String
  deriving DecidableEq, Repr

/-- A guild member as the handler reads it (datetimes kept as their rendered
`strftime` text; `joined_at` may be absent). -/
structure Member where
  name : String
  id : Nat
  nick : Option String
  joined_at : Option String
  created_at : String
  bot : Bool
  roles : List Role
  avatar : Option String
  deriving DecidableEq, Repr

/-- The user-information message built at src/bot.py lines 314-332 (f-string
concatenation, grouped to the right), including the role filter dropping
`@everyone` and the optional avatar line. -/
def userInfoMessage (u : Member) : String :=
  let roleMentions := (u.roles.filter (fun r => r.name ≠ "@everyone")).map Role.mention
  let base :=
    "**User Information**\nName: " ++ (u.name ++ ("\nID: " ++ (toString u.id ++
      ("\nNickname: " ++ ((u.nick.getD "None") ++ ("\nJoined Server: " ++
      ((u.joined_at.getD "Unknown") ++ ("\nAccount Created: " ++ (u.created_at ++
      ("\nBot Account: " ++ ((if u.bot then "Yes" else "No") ++ ("\nRoles: " ++
      (if roleMentions.isEmpty then "None"
       else String.intercalate ", " roleMentions)))))))))))))
  match u.avatar with
  | some url => base ++ ("\nAvatar URL: " ++ url)
  | none => base

/-- The `userinfo` handler body (src/bot.py lines 307-334): when the
optional `user` parameter is `None`, the invoking user is substituted; the
single response sent is the information message for the resulting target. -/
def userinfo (invoker : Member) (user : Option Member) : Msg :=
  let u := user.getD invoker
  ⟨userInfoMessage u, false⟩

/-! ## Cooldown store lemmas -/

theorem lookupCd_mem (l : List (Nat × Rat)) (u : Nat) (t : Rat)
    (h : lookupCd l u = some t) : (u, t) ∈ l := by
  induction l with
  | nil => simp [lookupCd] at h
  | cons p rest ih =>
      obtain ⟨k, v⟩ := p
      by_cases hk : k = u
      · simp only [lookupCd] at h
        rw [if_pos hk] at h
        injection h with hvt
        rw [← hk, ← hvt]
        exact List.mem_cons_self _ _
      · simp only [lookupCd] at h
        rw [if_neg hk] at h
        exact List.mem_cons_of_mem _ (ih h)

theorem mem_insertCd (l : List (Nat × Rat)) (u : Nat) (t : Rat) (p : Nat × Rat)
    (h : p ∈ insertCd l u t) : p ∈ l ∨ p = (u, t) := by
  induction l with
  | nil => exact Or.inr (by simpa [insertCd] using h)
  | cons q rest ih =>
      obtain ⟨k, v⟩ := q
      by_cases hk : k = u
      · simp only [insertCd] at h
        rw [if_pos hk] at h
        rcases List.mem_cons.mp h with h | h
        · exact Or.inr h
        · exact Or.inl (List.mem_cons_of_mem _ h)
      · simp only [insertCd] at h
        rw [if_neg hk] at h
        rcases List.mem_cons.mp h with h | h
        · exact Or.inl (by simp [h])
        · rcases ih h with h' | h'
          · exact Or.inl (List.mem_cons_of_mem _ h')
          · exact Or.inr h'

/-- The dict after one gate run: untouched (denial) or one overwrite. -/
theorem cooldown_snd_eq (seconds : Rat) (st : List (Nat × Rat)) (u : Nat)
    (now : Rat) :
    (cooldown seconds st u now).2 = st ∨
    (cooldown seconds st u now).2 = insertCd st u now := by
  unfold cooldown
  cases lookupCd st u with
  | none => simp
  | some last =>
      by_cases hc : now - last < seconds
      · simp [hc]
      · simp [hc]

theorem cooldown_snd_mem (seconds : Rat) (st : List (Nat × Rat)) (u : Nat)
    (now : Rat) (p : Nat × Rat) (h : p ∈ (cooldown seconds st u now).2) :
    p ∈ st ∨ p = (u, now) := by
  rcases cooldown_snd_eq seconds st u now with he | he
  · rw [he] at h
    exact Or.inl h
  · rw [he] at h
    exact mem_insertCd st u now p h

theorem cooldown_keys_nodup (seconds : Rat) (st : List (Nat × Rat)) (u : Nat)
    (now : Rat) (h : (st.map Prod.fst).Nodup) :
    (((cooldown seconds st u now).2).map Prod.fst).Nodup := by
  rcases cooldown_snd_eq seconds st u now with he | he <;> rw [he]
  · exact h
  · exact insertCd_keys_nodup st u now h

theorem cooldown_lookup_mono (seconds : Rat) (st : List (Nat × Rat)) (u : Nat)
    (now : Rat) (u' : Nat) (t : Rat)
    (h : lookupCd st u' = some t) (hle : t ≤ now) :
    ∃ t', lookupCd (cooldown seconds st u now).2 u' = some t' ∧ t ≤ t' := by
  rcases cooldown_snd_eq seconds st u now with he | he
  · exact ⟨t, by rw [he]; exact h, le_refl t⟩
  · by_cases hu : u' = u
    · subst hu
      exact ⟨now, by rw [he]; exact lookupCd_insertCd_self st u' now, hle⟩
    · exact ⟨t, by rw [he, lookupCd_insertCd_ne st u u' now hu]; exact h, le_refl t⟩

/-- An allowed invocation overwrites the invoker's entry with the clock. -/
theorem cooldown_allowed_overwrites (seconds : Rat) (st : List (Nat × Rat))
    (u : Nat) (now : Rat)
    (h : (cooldown seconds st u now).1 = CdResult.allowed) :
    lookupCd (cooldown seconds st u now).2 u = some now := by
  cases hl : lookupCd st u with
  | none =>
      have he : (cooldown seconds st u now).2 = insertCd st u now := by
        simp [cooldown, hl]
      rw [he]
      exact lookupCd_insertCd_self st u now
  | some last =>
      by_cases hc : now - last < seconds
      · exfalso
        have he : (cooldown seconds st u now).1 =
            CdResult.denied (seconds - (now - last)) := by
          simp [cooldown, hl, hc]
        rw [he] at h
        simp at h
      · have he : (cooldown seconds st u now).2 = insertCd st u now := by
          simp [cooldown, hl, hc]
        rw [he]
        exact lookupCd_insertCd_self st u now

/-- Invariant of the store under a run of time-ordered invocations: key
uniqueness is preserved and each key's recorded time never decreases. -/
theorem runCooldowns_invariant (seconds : Rat) (evts : List (Nat × Rat)) :
    ∀ st : List (Nat × Rat), (st.map Prod.fst).Nodup →
      evts.Pairwise (fun a b => a.2 ≤ b.2) →
      (∀ p ∈ st, ∀ q ∈ evts, p.2 ≤ q.2) →
      ((runCooldowns seconds st evts).map Prod.fst).Nodup ∧
      ∀ u t, lookupCd st u = some t →
        ∃ t', lookupCd (runCooldowns seconds st evts) u = some t' ∧ t ≤ t' := by
  induction evts with
  | nil =>
      intro st hnodup _ _
      exact ⟨hnodup, fun u t h => ⟨t, h, le_refl t⟩⟩
  | cons e rest ih =>
      intro st hnodup hsorted hinit
      obtain ⟨u, now⟩ := e
      have hrun : runCooldowns seconds st ((u, now) :: rest) =
          runCooldowns seconds (cooldown seconds st u now).2 rest := rfl
      have hnodup' := cooldown_keys_nodup seconds st u now hnodup
      have hpair := List.pairwise_cons.mp hsorted
      have hinit' : ∀ p ∈ (cooldown seconds st u now).2, ∀ q ∈ rest, p.2 ≤ q.2 := by
        intro p hp q hq
        rcases cooldown_snd_mem seconds st u now p hp with hmem | heq
        · exact hinit p hmem q (List.mem_cons_of_mem _ hq)
        · rw [heq]
          exact hpair.1 q hq
      have main := ih (cooldown seconds st u now).2 hnodup' hpair.2 hinit'
      rw [hrun]
      refine ⟨main.1, ?_⟩
      intro v t hv
      have hle : t ≤ now :=
        hinit (v, t) (lookupCd_mem st v t hv) (u, now) (List.mem_cons_self _ _)
      obtain ⟨t1, ht1, hle1⟩ := cooldown_lookup_mono seconds st u now v t hv hle
      obtain ⟨t2, ht2, hle2⟩ := main.2 v t1 ht1
      exact ⟨t2, ht2, le_trans hle1 hle2⟩

/-! ## Claim theorems -/

/-- C2: a second invocation of the same command by the same user strictly
inside the cooldown window is denied with remaining wait `r`,
`0 < r ≤ windowSeconds`, and the recorded time is untouched; an invocation
at or after the window (or with no recorded entry) is allowed and the
recorded time is overwritten with the current time before the handler runs. -/
theorem cooldown_gate_correct (seconds : Rat) (st : List (Nat × Rat)) (u : Nat)
    (now : Rat) :
    (∀ last, lookupCd st u = some last → last ≤ now → now - last < seconds →
      cooldown seconds st u now = (CdResult.denied (seconds - (now - last)), st) ∧
      0 < seconds - (now - last) ∧ seconds - (now - last) ≤ seconds) ∧
    (∀ last, lookupCd st u = some last → seconds ≤ now - last →
      (cooldown seconds st u now).1 = CdResult.allowed ∧
      lookupCd (cooldown seconds st u now).2 u = some now) ∧
    (lookupCd st u = none →
      (cooldown seconds st u now).1 = CdResult.allowed ∧
      lookupCd (cooldown seconds st u now).2 u = some now) := by
  refine ⟨?_, ?_, ?_⟩
  · intro last hl hle hlt
    refine ⟨by simp [cooldown, hl, hlt], by linarith, by linarith⟩
  · intro last hl hge
    have hnlt : ¬(now - last < seconds) := not_lt.mpr hge
    constructor
    · simp [cooldown, hl, hnlt]
    · simp [cooldown, hl, hnlt, lookupCd_insertCd_self]
  · intro hl
    constructor
    · simp [cooldown, hl]
    · simp [cooldown, hl, lookupCd_insertCd_self]

/-- Witness for C2 at window 3s: user 7 last invoked at t=10 is denied at
t=12 with remaining 1, allowed at t=13 with the entry overwritten; a fresh
user 9 is allowed at t=5 and recorded. -/
theorem cooldown_gate_correct_witness :
    cooldown 3 [((7 : Nat), (10 : Rat))] 7 12 =
      (CdResult.denied 1, [((7 : Nat), (10 : Rat))]) ∧
    (0 : Rat) < 1 ∧ (1 : Rat) ≤ 3 ∧
    (cooldown 3 [((7 : Nat), (10 : Rat))] 7 13).1 = CdResult.allowed ∧
    lookupCd (cooldown 3 [((7 : Nat), (10 : Rat))] 7 13).2 7 = some 13 ∧
    (cooldown 3 ([] : List (Nat × Rat)) 9 5).1 = CdResult.allowed ∧
    lookupCd (cooldown 3 ([] : List (Nat × Rat)) 9 5).2 9 = some 5 := by
  have hd := (cooldown_gate_correct 3 [((7 : Nat), (10 : Rat))] 7 12).1 10
    (by simp [lookupCd]) (by norm_num) (by norm_num)
  have ha := ((cooldown_gate_correct 3 [((7 : Nat), (10 : Rat))] 7 13).2.1) 10
    (by simp [lookupCd]) (by norm_num)
  have hf := (cooldown_gate_correct 3 ([] : List (Nat × Rat)) 9 5).2.2
    (by simp [lookupCd])
  refine ⟨?_, by norm_num, by norm_num, ha.1, ha.2, hf.1, hf.2⟩
  have h12 : (3 : Rat) - (12 - 10) = 1 := by norm_num
  rw [← h12]
  exact hd.1

/-- C3: after `put(k, v, t0)`, a `get` at `t0 + ε` with `ε < ttl` returns
`v`; a `get` at `t0 + ttl + ε` with `ε ≥ 0` (elapsed time not below `ttl`)
returns `none`; `put` overwrites any existing entry for `k` unconditionally. -/
theorem cache_round_trip (c : List (String × String × Rat)) (k v : String)
    (t0 ttl ε ε' : Rat) :
    (ε < ttl → cacheGet (cachePut c k v t0) k (t0 + ε) ttl = some v) ∧
    (0 ≤ ε' → cacheGet (cachePut c k v t0) k (t0 + ttl + ε') ttl = none) ∧
    cacheLookup (cachePut c k v t0) k = some (v, t0) := by
  refine ⟨?_, ?_, cacheLookup_cachePut_self c k v t0⟩
  · intro h
    simp only [cacheGet, cacheLookup_cachePut_self]
    rw [if_pos (show t0 + ε - t0 < ttl by linarith)]
  · intro h
    simp only [cacheGet, cacheLookup_cachePut_self]
    rw [if_neg (show ¬(t0 + ttl + ε' - t0 < ttl) by intro hc; linarith)]

/-- Witness for C3: overwrite an old entry for "london" at t0 = 100 with
ttl = 1800; a read at 100 + 60 hits, a read at 100 + 1800 + 5 misses, and
the stored entry is exactly the new pair. -/
theorem cache_round_trip_witness :
    cacheGet (cachePut [("london", "old", (0 : Rat))] "london" "fresh" 100)
      "london" (100 + 60) 1800 = some "fresh" ∧
    cacheGet (cachePut [("london", "old", (0 : Rat))] "london" "fresh" 100)
      "london" (100 + 1800 + 5) 1800 = none ∧
    cacheLookup (cachePut [("london", "old", (0 : Rat))] "london" "fresh" 100)
      "london" = some ("fresh", 100) := by
  have h := cache_round_trip [("london", "old", (0 : Rat))] "london" "fresh"
    100 1800 60 5
  exact ⟨h.1 (by norm_num), h.2.1 (by norm_num), h.2.2⟩

/-- C9: over any time-ordered sequence of invocations the store keeps exactly
one entry per key (key list stays duplicate-free), every recorded
`lastInvokedAt` is monotonically non-decreasing and never removed, and an
allowed invocation overwrites the invoker's entry with the current clock. -/
theorem cooldown_store_invariants (seconds : Rat) (st evts : List (Nat × Rat))
    (hnodup : (st.map Prod.fst).Nodup)
    (hsorted : evts.Pairwise (fun a b => a.2 ≤ b.2))
    (hinit : ∀ p ∈ st, ∀ q ∈ evts, p.2 ≤ q.2) :
    ((runCooldowns seconds st evts).map Prod.fst).Nodup ∧
    (∀ u t, lookupCd st u = some t →
      ∃ t', lookupCd (runCooldowns seconds st evts) u = some t' ∧ t ≤ t') ∧
    (∀ (st' : List (Nat × Rat)) (u : Nat) (now : Rat),
      (cooldown seconds st' u now).1 = CdResult.allowed →
      lookupCd (cooldown seconds st' u now).2 u = some now) := by
  have main := runCooldowns_invariant seconds evts st hnodup hsorted hinit
  exact ⟨main.1, main.2,
    fun st' u now h => cooldown_allowed_overwrites seconds st' u now h⟩

/-- Witness for C9: store `[(1, 0)]`, then user 1 at t=2 (denied), user 2 at
t=2 (allowed), user 1 at t=5 (allowed): keys stay duplicate-free and user 1's
entry never decreased. -/
theorem cooldown_store_invariants_witness :
    ((runCooldowns 3 [((1 : Nat), (0 : Rat))]
        [((1 : Nat), (2 : Rat)), ((2 : Nat), (2 : Rat)),
          ((1 : Nat), (5 : Rat))]).map Prod.fst).Nodup ∧
    ∃ t', lookupCd (runCooldowns 3 [((1 : Nat), (0 : Rat))]
        [((1 : Nat), (2 : Rat)), ((2 : Nat), (2 : Rat)),
          ((1 : Nat), (5 : Rat))]) 1 = some t' ∧ (0 : Rat) ≤ t' := by
  have h := cooldown_store_invariants 3 [((1 : Nat), (0 : Rat))]
    [((1 : Nat), (2 : Rat)), ((2 : Nat), (2 : Rat)), ((1 : Nat), (5 : Rat))]
    (by simp) (by norm_num [List.pairwise_cons]) (by norm_num [List.mem_cons])
  exact ⟨h.1, h.2.1 1 0 (by simp [lookupCd])⟩

/-- C4: with a fresh cache and a successful lookup for "London", the handler
responds with the formatted string (containing the city name and the
temperature text), stores exactly that string in the cache under the
lowercased key "london", and a second invocation for the same city in any
casing within the TTL responds with the identical cached string without a
new external call and leaves the cache unchanged. -/
theorem weather_fresh_then_cached (k city2 : String) (d : WeatherData)
    (ttl now now' : Rat) (f' : FetchOutcome)
    (hk : k ≠ "") (hname : d.name = "London")
    (hcity2 : pyLower city2 = "london") (hfresh : now' - now < ttl) :
    weather (some k) [] ttl "London" now (FetchOutcome.ok d) =
      ⟨[⟨weatherMessage d, false⟩], [("london", weatherMessage d, now)], true⟩ ∧
    strContains (weatherMessage d) "London" = true ∧
    strContains (weatherMessage d) d.temp = true ∧
    weather (some k) [("london", weatherMessage d, now)] ttl city2 now' f' =
      ⟨[⟨weatherMessage d, false⟩], [("london", weatherMessage d, now)], false⟩ := by
  have hL : pyLower "London" = "london" := by decide
  refine ⟨?_, ?_, ?_, ?_⟩
  · simp [weather, hk, hL, cacheGet, cacheLookup, cachePut]
  · simp only [weatherMessage, hname]
    exact strContains_appendR _ _ _
  · simp only [weatherMessage]
    exact strContains_append_left _ _ _ (strContains_append_left _ _ _
      (strContains_append_left _ _ _ (strContains_append_left _ _ _
      (strContains_append_left _ _ _ (strContains_append_left _ _ _
      (strContains_append_left _ _ _ (strContains_startsWith d.temp _)))))))
  · simp [weather, hk, hcity2, cacheGet, cacheLookup, hfresh]

/-- Witness for C4 on a concrete London payload, second call as "LONDON"
60 seconds later against a 1800-second TTL, with the provider unreachable
(timeout) on the second call. -/
theorem weather_fresh_then_cached_witness :
    weather (some "KEY") [] 1800 "London" 0
        (FetchOutcome.ok ⟨"light rain", "15.5", "14.2", "72", "4.1", "London", "GB"⟩) =
      ⟨[⟨weatherMessage ⟨"light rain", "15.5", "14.2", "72", "4.1", "London", "GB"⟩,
          false⟩],
        [("london",
          weatherMessage ⟨"light rain", "15.5", "14.2", "72", "4.1", "London", "GB"⟩,
          0)], true⟩ ∧
    strContains
      (weatherMessage ⟨"light rain", "15.5", "14.2", "72", "4.1", "London", "GB"⟩)
      "London" = true ∧
    strContains
      (weatherMessage ⟨"light rain", "15.5", "14.2", "72", "4.1", "London", "GB"⟩)
      (WeatherData.temp ⟨"light rain", "15.5", "14.2", "72", "4.1", "London", "GB"⟩) =
      true ∧
    weather (some "KEY")
        [("london",
          weatherMessage ⟨"light rain", "15.5", "14.2", "72", "4.1", "London", "GB"⟩,
          0)] 1800 "LONDON" 60 FetchOutcome.timeout =
      ⟨[⟨weatherMessage ⟨"light rain", "15.5", "14.2", "72", "4.1", "London", "GB"⟩,
          false⟩],
        [("london",
          weatherMessage ⟨"light rain", "15.5", "14.2", "72", "4.1", "London", "GB"⟩,
          0)], false⟩ :=
  weather_fresh_then_cached "KEY" "LONDON"
    ⟨"light rain", "15.5", "14.2", "72", "4.1", "London", "GB"⟩ 1800 0 60
    FetchOutcome.timeout (by decide) rfl (by decide) (by norm_num)

/-- C5: every failed lookup produces its specific ephemeral message — 404 the
city-not-found text, any other non-200 status the generic provider-error
text, a timeout the timeout text, a missing API key the not-configured text
without an external call — and in every failure case the cache is returned
unchanged (failed lookups are never cached). -/
theorem weather_failure_paths (k city : String)
    (cache : List (String × String × Rat)) (ttl now : Rat) (code : Nat)
    (hk : k ≠ "") (hmiss : cacheGet cache (pyLower city) now ttl = none) :
    weather (some k) cache ttl city now (FetchOutcome.httpStatus 404) =
      ⟨[⟨"City " ++ city ++ " not found. Please check the city name.", true⟩],
        cache, true⟩ ∧
    (code ≠ 200 → code ≠ 404 →
      weather (some k) cache ttl city now (FetchOutcome.httpStatus code) =
        ⟨[⟨"An error occurred while fetching weather data. Please try again later.",
            true⟩], cache, true⟩) ∧
    weather (some k) cache ttl city now FetchOutcome.timeout =
      ⟨[⟨"The weather service is taking too long to respond. Please try again later.",
          true⟩], cache, true⟩ ∧
    weather (some k) cache ttl city now FetchOutcome.exn =
      ⟨[⟨"An error occurred while fetching weather data. Please try again later.",
          true⟩], cache, true⟩ ∧
    (∀ f : FetchOutcome, weather none cache ttl city now f =
      ⟨[⟨"Weather API is not configured.", true⟩], cache, false⟩) := by
  refine ⟨?_, ?_, ?_, ?_, ?_⟩
  · simp [weather, hk, hmiss]
  · intro _ h404
    simp [weather, hk, hmiss, h404]
  · simp [weather, hk, hmiss]
  · simp [weather, hk, hmiss]
  · intro f
    simp [weather]

/-- Witness for C5 on city "Paris" with an empty cache and status 500 as the
non-200 provider error. -/
theorem weather_failure_paths_witness :
    weather (some "KEY") [] 10 "Paris" 0 (FetchOutcome.httpStatus 404) =
      ⟨[⟨"City " ++ "Paris" ++ " not found. Please check the city name.", true⟩],
        [], true⟩ ∧
    weather (some "KEY") [] 10 "Paris" 0 (FetchOutcome.httpStatus 500) =
      ⟨[⟨"An error occurred while fetching weather data. Please try again later.",
          true⟩], [], true⟩ ∧
    weather (some "KEY") [] 10 "Paris" 0 FetchOutcome.timeout =
      ⟨[⟨"The weather service is taking too long to respond. Please try again later.",
          true⟩], [], true⟩ ∧
    weather none [] 10 "Paris" 0 FetchOutcome.exn =
      ⟨[⟨"Weather API is not configured.", true⟩], [], false⟩ := by
  have h := weather_failure_paths "KEY" "Paris" [] 10 0 500 (by decide) (by decide)
  exact ⟨h.1, h.2.1 (by decide) (by decide), h.2.2.1, h.2.2.2.2 FetchOutcome.exn⟩

/-- C1: for every handler outcome of an accepted invocation the dispatch
produces exactly one initial interaction response and never raises; the
error hook catches any handler error, answers ephemerally through the
initial response when none was sent yet and through a followup when the
initial response is already done, and no error (not even a failing send)
escapes the hook. -/
theorem dispatcher_single_response :
    (∀ (handlerMsg : String) (o : HandlerOutcome),
      (dispatch handlerMsg o).2 = false ∧
      initialResponses (dispatch handlerMsg o).1 = 1) ∧
    (∀ (isDone : Bool) (e : AppCommandError) (sendFails : Bool),
      (on_app_command_error isDone e sendFails).raised = false) ∧
    (∀ e : AppCommandError, on_app_command_error false e false =
      ⟨HookSend.initial ("An error occurred: " ++ errorText e) true, false⟩) ∧
    (∀ e : AppCommandError, on_app_command_error true e false =
      ⟨HookSend.followup ("An error occurred: " ++ errorText e) true, false⟩) := by
  refine ⟨?_, ?_, fun e => rfl, fun e => rfl⟩
  · intro m o
    cases o <;> simp [dispatch, on_app_command_error, initialResponses]
  · intro isDone e sendFails
    cases isDone <;> cases sendFails <;> simp [on_app_command_error]

/-! ### Broadcast tally lemmas -/

theorem broadcastStep_eq (acc : Nat × Nat) (g : BGuild) :
    broadcastStep acc g =
      if guildSendOk g then (acc.1 + 1, acc.2) else (acc.1, acc.2 + 1) := by
  unfold broadcastStep guildSendOk
  cases pickChannel g with
  | none => simp
  | some c => cases hc : c.sendFails <;> simp [hc]

theorem broadcast_foldl (gs : List BGuild) (s f : Nat) :
    gs.foldl broadcastStep (s, f) =
      (s + (gs.filter (fun g => guildSendOk g)).length,
        f + (gs.filter (fun g => !guildSendOk g)).length) := by
  induction gs generalizing s f with
  | nil => simp
  | cons g rest ih =>
      rw [List.foldl_cons, broadcastStep_eq]
      by_cases hg : guildSendOk g = true
      · rw [if_pos hg, ih]
        simp [List.filter_cons, hg]
        omega
      · have hg' : guildSendOk g = false := by
          cases hgb : guildSendOk g
          · rfl
          · exact absurd hgb hg
        rw [if_neg hg, ih]
        simp [List.filter_cons, hg']
        omega

theorem filter_length_total {α : Type} (p : α → Bool) (l : List α) :
    (l.filter p).length + (l.filter (fun g => !p g)).length = l.length := by
  induction l with
  | nil => rfl
  | cons a l ih =>
      cases h : p a <;> simp [List.filter_cons, h] <;> omega

/-- C6: over N joined guilds of which M offer no sendable channel, the
broadcast loop — picking the system channel when present, else the first
text channel the bot may send in — reports successCount = N − M and
failCount = M when every attempted send succeeds; in general every guild
contributes exactly one tally (per-guild failures are caught and counted,
never propagated), so the reported counts always sum to N. -/
theorem do_broadcast_counts (guilds : List BGuild)
    (hsend : ∀ g ∈ guilds, ∀ c, pickChannel g = some c → c.sendFails = false) :
    do_broadcast guilds =
      (guilds.length - (guilds.filter (fun g => (pickChannel g).isNone)).length,
        (guilds.filter (fun g => (pickChannel g).isNone)).length) ∧
    (∀ g : BGuild, ∀ c, g.systemChannel = some c → pickChannel g = some c) ∧
    (∀ g : BGuild, g.systemChannel = none →
      pickChannel g = g.textChannels.find? (fun c => c.canSend)) ∧
    (∀ gs : List BGuild, (do_broadcast gs).1 + (do_broadcast gs).2 = gs.length) := by
  refine ⟨?_, ?_, ?_, ?_⟩
  · have hpt : ∀ g ∈ guilds, (!guildSendOk g) = (pickChannel g).isNone := by
      intro g hg
      unfold guildSendOk
      cases hp : pickChannel g with
      | none => simp
      | some c => simp [hsend g hg c hp]
    have hfe : guilds.filter (fun g => !guildSendOk g) =
        guilds.filter (fun g => (pickChannel g).isNone) :=
      List.filter_congr hpt
    have h2 : do_broadcast guilds =
        (0 + (guilds.filter (fun g => guildSendOk g)).length,
          0 + (guilds.filter (fun g => !guildSendOk g)).length) :=
      broadcast_foldl guilds 0 0
    rw [hfe] at h2
    have htot := filter_length_total (fun g => guildSendOk g) guilds
    rw [hfe] at htot
    rw [h2]
    have hlen : (guilds.filter (fun g => guildSendOk g)).length =
        guilds.length - (guilds.filter (fun g => (pickChannel g).isNone)).length := by
      omega
    rw [hlen]
    simp
  · intro g c h
    simp [pickChannel, h]
  · intro g h
    simp [pickChannel, h]
  · intro gs
    have h2 : do_broadcast gs =
        (0 + (gs.filter (fun g => guildSendOk g)).length,
          0 + (gs.filter (fun g => !guildSendOk g)).length) :=
      broadcast_foldl gs 0 0
    rw [h2]
    simpa using filter_length_total (fun g => guildSendOk g) gs

/-- Witness for C6: three guilds — one with a system channel, one with only
a sendable second text channel, one with no sendable channel — tally (2, 1). -/
theorem do_broadcast_counts_witness :
    do_broadcast
      [⟨"a", some ⟨true, false⟩, []⟩,
        ⟨"b", none, [⟨false, false⟩, ⟨true, false⟩]⟩,
        ⟨"c", none, [⟨false, false⟩]⟩] = (2, 1) ∧
    (3 : Nat) - 1 = 2 := by
  have h := do_broadcast_counts
    [⟨"a", some ⟨true, false⟩, []⟩,
      ⟨"b", none, [⟨false, false⟩, ⟨true, false⟩]⟩,
      ⟨"c", none, [⟨false, false⟩]⟩]
    (by
      intro g hg c hp
      simp only [List.mem_cons, List.not_mem_nil, or_false] at hg
      rcases hg with rfl | rfl | rfl <;>
        simp [pickChannel, List.find?] at hp <;>
        simp [← hp])
  refine ⟨?_, rfl⟩
  rw [h.1]
  rfl

/-- C7: the shutdown flag is a one-way latch: from the initial state the
first signal flips it false→true and schedules the connection close exactly
once without exiting; a second signal while the flag is set forces exit
code 0 without scheduling close again; whenever the flag is set the handler
keeps it set (it is never reset to false). -/
theorem shutdown_latch (s : ShutdownState) :
    signal_handler initialShutdownState = ⟨true, 1, none⟩ ∧
    signal_handler (signal_handler initialShutdownState) = ⟨true, 1, some 0⟩ ∧
    (s.is_shutting_down = false →
      signal_handler s = ⟨true, s.closeCalls + 1, s.exited⟩) ∧
    (s.is_shutting_down = true →
      signal_handler s = ⟨true, s.closeCalls, some 0⟩) := by
  obtain ⟨b, cc, ex⟩ := s
  refine ⟨rfl, rfl, ?_, ?_⟩
  · intro h
    simp only at h
    subst h
    simp [signal_handler]
  · intro h
    simp only at h
    subst h
    simp [signal_handler]

/-- Witness for C7 at the concrete states before and during shutdown. -/
theorem shutdown_latch_witness :
    signal_handler ⟨false, 0, none⟩ = ⟨true, 1, none⟩ ∧
    signal_handler ⟨true, 1, none⟩ = ⟨true, 1, some 0⟩ :=
  ⟨(shutdown_latch ⟨false, 0, none⟩).2.2.1 rfl,
    (shutdown_latch ⟨true, 1, none⟩).2.2.2 rfl⟩

/-- C8: the console send with an id resolving to no channel reports
channel-not-found and sends nothing; fewer than two arguments yields the
usage message, a non-numeric channel id yields the id error message, and in
all three cases nothing is sent and bot state is untouched. -/
theorem do_send_errors (channels failing : List Nat) (args : List String)
    (id : Nat) :
    (args.length < 2 → do_send channels failing args = (SendOutcome.usage, [])) ∧
    (¬args.length < 2 → parseNat? (args.headD "") = none →
      do_send channels failing args = (SendOutcome.badId, [])) ∧
    (¬args.length < 2 → parseNat? (args.headD "") = some id → id ∉ channels →
      do_send channels failing args = (SendOutcome.channelNotFound id, [])) := by
  refine ⟨?_, ?_, ?_⟩
  · intro h
    simp [do_send, h]
  · intro h hn
    unfold do_send
    rw [if_neg h, hn]
  · intro h hs hid
    unfold do_send
    rw [if_neg h, hs]
    simp [hid]

/-- Witness for C8: `send 12345 "hi"` with only channel 555 existing reports
not-found; `send 12345` alone is usage; `send abc hi` is a bad id; nothing
is ever sent. -/
theorem do_send_errors_witness :
    do_send [555] [] ["12345", "hi"] = (SendOutcome.channelNotFound 12345, []) ∧
    do_send [555] [] ["12345"] = (SendOutcome.usage, []) ∧
    do_send [555] [] ["abc", "hi"] = (SendOutcome.badId, []) := by
  refine ⟨?_, ?_, ?_⟩
  · exact (do_send_errors [555] [] ["12345", "hi"] 12345).2.2 (by decide)
      (by rfl) (by decide)
  · exact (do_send_errors [555] [] ["12345"] 0).1 (by decide)
  · exact (do_send_errors [555] [] ["abc", "hi"] 0).2.1 (by decide) (by rfl)

/-- C10: `userinfo` with the user parameter omitted substitutes the invoker,
so its single response is the information message for the invoker; with a
user supplied the single response is that user's information message, which
names the target (contains the target's name and id). -/
theorem userinfo_target (invoker target : Member) :
    userinfo invoker none = ⟨userInfoMessage invoker, false⟩ ∧
    userinfo invoker (some target) = ⟨userInfoMessage target, false⟩ ∧
    strContains (userInfoMessage target) target.name = true ∧
    strContains (userInfoMessage target) (toString target.id) = true := by
  refine ⟨rfl, rfl, ?_, ?_⟩
  · cases hav : target.avatar with
    | none =>
        simp only [userInfoMessage, hav]
        exact strContains_appendR _ _ _
    | some url =>
        simp only [userInfoMessage, hav]
        exact strContains_append_right _ _ _ (strContains_appendR _ _ _)
  · cases hav : target.avatar with
    | none =>
        simp only [userInfoMessage, hav]
        exact strContains_append_left _ _ _ (strContains_append_left _ _ _
          (strContains_append_left _ _ _
            (strContains_startsWith (toString target.id) _)))
    | some url =>
        simp only [userInfoMessage, hav]
        exact strContains_append_right _ _ _
          (strContains_append_left _ _ _ (strContains_append_left _ _ _
            (strContains_append_left _ _ _
              (strContains_startsWith (toString target.id) _))))

end Bot
